import Mathlib

/-!
Verification of the job-application intake handler.

The handler (a Next.js API route) receives a multipart submission with
fields `fullName`, `email`, `phone`, `linkedin` and one resume file.
It stores the file, validates the fields in a fixed order, checks for
duplicate email / phone in the applicant table, and creates a record.

Strings are modelled as `List Char`; the JS runtime's `trim`,
`toLowerCase`, regex tests and truthiness checks are embedded explicitly
below, each definition annotated with the source line it models.
-/

namespace JobApp

/-- Strings of the embedded program are lists of characters. -/
abbrev Str := List Char

/-- Coerce a Lean string literal to the embedded string type. -/
def str (s : String) : Str := s.data

/-- The character class of JavaScript's `\s` (and of `String.prototype.trim`):
whitespace and line-terminator code points. -/
def jsWhitespace (c : Char) : Bool :=
  decide (c.toNat = 0x9) || decide (c.toNat = 0xA) || decide (c.toNat = 0xB) ||
  decide (c.toNat = 0xC) || decide (c.toNat = 0xD) || decide (c.toNat = 0x20) ||
  decide (c.toNat = 0xA0) || decide (c.toNat = 0x1680) ||
  (decide (0x2000 ≤ c.toNat) && decide (c.toNat ≤ 0x200A)) ||
  decide (c.toNat = 0x2028) || decide (c.toNat = 0x2029) ||
  decide (c.toNat = 0x202F) || decide (c.toNat = 0x205F) ||
  decide (c.toNat = 0x3000) || decide (c.toNat = 0xFEFF)

/-- Drop trailing characters satisfying `p` (helper for `trimStr`). -/
def dropTrailing (p : Char → Bool) (s : Str) : Str :=
  (s.reverse.dropWhile p).reverse

/-- JavaScript `String.prototype.trim`: strip leading and trailing
`\s`-class characters. -/
def trimStr (s : Str) : Str :=
  dropTrailing jsWhitespace (s.dropWhile jsWhitespace)

/-- JavaScript `String.prototype.toLowerCase`, at the ASCII level used by
this program's inputs. -/
def lowerStr (s : Str) : Str := s.map Char.toLower

/-- Does `s` start with `pre`? (helper for substring containment). -/
def startsWith : Str → Str → Bool
  | _, [] => true
  | [], _ :: _ => false
  | h :: t, n :: m => (h == n) && startsWith t m

/-- JavaScript `String.prototype.includes`: `needle` occurs as a
contiguous substring of `hay`. -/
def strContains (hay needle : Str) : Bool :=
  match hay with
  | [] => needle.isEmpty
  | _ :: t => startsWith hay needle || strContains t needle

/-- A character admissible in the local part / domain atoms of the email
regex `^[^\s@]+@[^\s@]+\.[^\s@]+$`: not whitespace and not `@`. -/
def emailToken (c : Char) : Bool := !jsWhitespace c && !(c == '@')

/-- Tail of the email check after the `@`: models `[^\s@]+\.[^\s@]+$`
applied to the part of the string after its (unique) `@`: no further `@`,
no whitespace, and a `.` in some interior position. -/
def emailTail (r : Str) : Bool :=
  !(r.contains '@') && r.all (fun c => !jsWhitespace c) &&
  ((r.drop 1).dropLast).contains '.'

/-- `validateEmail` (part_000 lines 46-49): the test of
`/^[^\s@]+@[^\s@]+\.[^\s@]+$/`.  The regex splits the string at its first
`@` (the character classes exclude `@`): the part before must be a
non-empty run of non-whitespace characters, and the part after must
contain no `@`, no whitespace, and an interior `.`. -/
def validateEmail (s : Str) : Bool :=
  match s.dropWhile (fun c => !(c == '@')) with
  | [] => false
  | _ :: r =>
    !((s.takeWhile (fun c => !(c == '@'))).isEmpty) &&
    (s.takeWhile (fun c => !(c == '@'))).all (fun c => !jsWhitespace c) &&
    emailTail r

/-- `validatePhone` (part_000 lines 51-54): the test of `/^[0-9]{10}$/`. -/
def validatePhone (s : Str) : Bool :=
  decide (s.length = 10) && s.all Char.isDigit

/-- `validateLinkedIn` (part_000 lines 56-60): empty is valid (optional
field); otherwise the lower-cased string must contain
`linkedin.com/in/`. -/
def validateLinkedIn (s : Str) : Bool :=
  if s.isEmpty then true
  else strContains (lowerStr s) (str "linkedin.com/in/")

/-- A character the multer filename sanitizer keeps: the class
`[a-zA-Z0-9.-]` of part_000 line 18. -/
def allowedFileChar (c : Char) : Bool :=
  (decide ('a' ≤ c) && decide (c ≤ 'z')) ||
  (decide ('A' ≤ c) && decide (c ≤ 'Z')) ||
  (decide ('0' ≤ c) && decide (c ≤ '9')) ||
  (c == '.') || (c == '-')

/-- Filename sanitization (part_000 line 18):
`originalname.replace(/[^a-zA-Z0-9.-]/g, '_')`. -/
def sanitizeName (s : Str) : Str :=
  s.map (fun c => if allowedFileChar c then c else '_')

/-- Generated stored-file name (part_000 line 19):
`${Date.now()}-${sanitizedName}` with `now` the millisecond timestamp. -/
def storedFileName (now : Nat) (originalname : Str) : Str :=
  Nat.toDigits 10 now ++ '-' :: sanitizeName originalname

/-- JS truthiness composed with optional-chaining trim:
`!x?.trim()` is false exactly when the field is present with a
non-whitespace character. -/
def presentNonEmpty (o : Option Str) : Bool :=
  match o with
  | none => false
  | some s => !(trimStr s).isEmpty

/-- Plain JS truthiness of an optional string field. -/
def truthy (o : Option Str) : Bool :=
  match o with
  | none => false
  | some s => !s.isEmpty

/-- `linkedin?.trim() || null` (part_000 line 149). -/
def jsOptTrim (o : Option Str) : Option Str :=
  match o with
  | none => none
  | some s => if (trimStr s).isEmpty then none else some (trimStr s)

/-- An applicant row of the relational store (prisma model). -/
structure Applicant where
  id : Nat
  full_name : Str
  email : Str
  phone : Str
  linkedin : Option Str
  resume_path : Str
deriving DecidableEq

/-- A file successfully persisted by the upload middleware: its full
filesystem path and its generated basename. -/
structure UploadedFile where
  path : Str
  filename : Str
deriving DecidableEq

/-- A parsed submission request: the HTTP method, the four text fields of
the multipart body (absent fields are `none`), and the stored file, when
the upload middleware stored one. -/
structure SubmitReq where
  method : Str
  fullName : Option Str
  email : Option Str
  phone : Option Str
  linkedin : Option Str
  file : Option UploadedFile
deriving DecidableEq

/-- Server-side durable state: the applicant table and the set of file
paths present in durable storage. -/
structure ServerState where
  applicants : List Applicant
  files : List Str
deriving DecidableEq

/-- Fault injection for the two fallible side effects: `unlinkFails`
makes every `fs.unlinkSync` call throw; `createFails` makes
`prisma.applicant.create` throw. -/
structure Faults where
  unlinkFails : Bool
  createFails : Bool
deriving DecidableEq

/-- The error messages the handler can place in a 400 response. -/
inductive ErrMsg where
  | fullNameRequired
  | emailRequired
  | invalidEmail
  | phoneRequired
  | invalidPhone
  | invalidLinkedin
  | resumeRequired
  | duplicateEmail
  | duplicatePhone
deriving DecidableEq

/-- The handler's response: 405, 400 with a message, 500, or 200 with the
new record's id. -/
inductive ApiResponse where
  | methodNotAllowed
  | badRequest (e : ErrMsg)
  | internalError
  | success (id : Nat)
deriving DecidableEq

/-- The handler's observable outcome: the response sent and the durable
state (files and records) after the request. -/
structure Outcome where
  response : ApiResponse
  state : ServerState
deriving DecidableEq

/-- Lines 91-93: `if (!fullName?.trim()) return 400 'Full name is required'`. -/
def fullNameCheck (o : Option Str) : Option ErrMsg :=
  if presentNonEmpty o then none else some .fullNameRequired

/-- Lines 95-101: missing email, then email-format check on the raw value. -/
def emailCheck (o : Option Str) : Option ErrMsg :=
  if !(presentNonEmpty o) then some .emailRequired
  else if !(validateEmail (o.getD [])) then some .invalidEmail
  else none

/-- Lines 103-109: missing phone, then phone-format check on the raw value. -/
def phoneCheck (o : Option Str) : Option ErrMsg :=
  if !(presentNonEmpty o) then some .phoneRequired
  else if !(validatePhone (o.getD [])) then some .invalidPhone
  else none

/-- Lines 111-113: `if (linkedin && !validateLinkedIn(linkedin))`. -/
def linkedinCheck (o : Option Str) : Option ErrMsg :=
  if truthy o && !(validateLinkedIn (o.getD [])) then some .invalidLinkedin
  else none

/-- Lines 115-117: `if (!uploadedFile) return 400 'Resume file is required'`. -/
def fileCheck (f : Option UploadedFile) : Option ErrMsg :=
  if f.isNone then some .resumeRequired else none

/-- First `some` of a list of check results: models the sequential
short-circuiting `if`-chain of lines 91-117. -/
def firstSome : List (Option ErrMsg) → Option ErrMsg
  | [] => none
  | some e :: _ => some e
  | none :: rest => firstSome rest

/-- The field-validation phase (lines 91-117), in the source's fixed
order: full name, email, phone, linkedin, file-present; the first failing
check's message is returned. -/
def fieldError (req : SubmitReq) : Option ErrMsg :=
  firstSome [fullNameCheck req.fullName, emailCheck req.email,
             phoneCheck req.phone, linkedinCheck req.linkedin,
             fileCheck req.file]

/-- The upload step (multer middleware): when the request carries a file,
it is written to durable storage before any field validation runs. -/
def afterUpload (st : ServerState) (req : SubmitReq) : ServerState :=
  match req.file with
  | none => st
  | some f => { st with files := st.files ++ [f.path] }

/-- `fs.unlinkSync(p)`: remove the file at path `p` from durable storage. -/
def removeFile (st : ServerState) (p : Str) : ServerState :=
  { st with files := st.files.filter (fun q => !(q == p)) }

/-- The created applicant row (lines 144-152): trimmed full name, trimmed
lower-cased email, trimmed phone, `linkedin?.trim() || null`, and
`resumes/` ++ the stored file's basename. -/
def mkApplicant (id : Nat) (req : SubmitReq) (f : UploadedFile) : Applicant :=
  { id := id
    full_name := trimStr (req.fullName.getD [])
    email := lowerStr (trimStr (req.email.getD []))
    phone := trimStr (req.phone.getD [])
    linkedin := jsOptTrim req.linkedin
    resume_path := str "resumes/" ++ f.filename }

/-- Lines 119-159 and the catch block 161-174: duplicate-email lookup by
the raw submitted email, duplicate-phone lookup by the raw submitted
phone, then record creation.  In the duplicate branches `fs.unlinkSync`
is called unguarded: if it throws, control reaches the catch block, whose
guarded cleanup swallows a second failure and a 500 is returned.  A
create failure reaches the catch block, which attempts cleanup (failure
swallowed) and returns 500. -/
def dupAndCreate (db : List Applicant) (st1 : ServerState) (req : SubmitReq)
    (f : UploadedFile) (faults : Faults) : Outcome :=
  match db.find? (fun a => a.email == req.email.getD []) with
  | some _ =>
    if faults.unlinkFails then ⟨.internalError, st1⟩
    else ⟨.badRequest .duplicateEmail, removeFile st1 f.path⟩
  | none =>
    match db.find? (fun a => a.phone == req.phone.getD []) with
    | some _ =>
      if faults.unlinkFails then ⟨.internalError, st1⟩
      else ⟨.badRequest .duplicatePhone, removeFile st1 f.path⟩
    | none =>
      if faults.createFails then
        if faults.unlinkFails then ⟨.internalError, st1⟩
        else ⟨.internalError, removeFile st1 f.path⟩
      else
        ⟨.success (st1.applicants.length + 1),
         { st1 with
           applicants := st1.applicants ++
             [mkApplicant (st1.applicants.length + 1) req f] }⟩

/-- The whole handler (part_000 lines 62-174): method guard, upload step,
field validation in fixed order, duplicate checks, record creation, with
cleanup behaviour as in the source. -/
def handler (st : ServerState) (req : SubmitReq) (faults : Faults) : Outcome :=
  if req.method = str "POST" then
    match fieldError req with
    | some e => ⟨.badRequest e, afterUpload st req⟩
    | none =>
      match req.file with
      | none => ⟨.badRequest .resumeRequired, afterUpload st req⟩
      | some f => dupAndCreate st.applicants (afterUpload st req) req f faults
  else ⟨.methodNotAllowed, st⟩


/-! ### Concrete fixtures for witnesses and counterexamples -/

/-- A stored upload used in concrete scenarios. -/
def sampleFile : UploadedFile :=
  ⟨str "resumes/1700000000000-cv.pdf", str "1700000000000-cv.pdf"⟩

/-- No injected faults: unlink and create both succeed. -/
def noFaults : Faults := ⟨false, false⟩

/-- Empty applicant table and empty file store. -/
def emptyState : ServerState := ⟨[], []⟩

/-- An accepted applicant whose stored (lower-cased) email is `a@b.com`. -/
def applicantJane : Applicant :=
  ⟨1, str "Jane Doe", str "a@b.com", str "1111111111", none, str "resumes/1-a.pdf"⟩

/-- State containing `applicantJane` and her stored resume. -/
def stateWithJane : ServerState := ⟨[applicantJane], [str "resumes/1-a.pdf"]⟩

/-- A request with a stored file but a missing full name and invalid email
and phone. -/
def reqMissingName : SubmitReq :=
  ⟨str "POST", none, some (str "not-an-email"), some (str "123"), none, some sampleFile⟩

/-- A valid, non-duplicate submission with upper-cased email `A@B.com`. -/
def reqUpperEmail : SubmitReq :=
  ⟨str "POST", some (str "John Smith"), some (str "A@B.com"),
   some (str "2222222222"), none, some sampleFile⟩

/-- A valid submission whose email exactly matches `applicantJane`'s. -/
def reqDupEmail : SubmitReq :=
  ⟨str "POST", some (str "John Smith"), some (str "a@b.com"),
   some (str "2222222222"), none, some sampleFile⟩

/-- A fully valid submission with untrimmed fields. -/
def reqMessy : SubmitReq :=
  ⟨str "POST", some (str "  John Smith  "), some (str "John@Example.com"),
   some (str "3333333333"), some (str " https://linkedin.com/in/john "),
   some sampleFile⟩

/-- A fully valid submission with plain fields. -/
def reqValid : SubmitReq :=
  ⟨str "POST", some (str "Ann Lee"), some (str "ann@lee.io"),
   some (str "5555555555"), none, some sampleFile⟩

/-- A valid submission used for the phone-consistency scenario. -/
def reqPhoneValid : SubmitReq :=
  ⟨str "POST", some (str "Jo Na"), some (str "q@w.ee"),
   some (str "4444444444"), none, some sampleFile⟩

/-- A submission identical to `reqValid` but sent with method GET. -/
def reqGet : SubmitReq :=
  ⟨str "GET", some (str "Ann Lee"), some (str "ann@lee.io"),
   some (str "5555555555"), none, some sampleFile⟩

/-- A valid submission with the given phone string. -/
def phoneReq (p : String) : SubmitReq :=
  ⟨str "POST", some (str "John Smith"), some (str "j@s.io"),
   some (str p), none, some sampleFile⟩

/-- A submission with a valid name but invalid email, invalid phone and
no file: the email-format check is its first failing check. -/
def reqBadEmail : SubmitReq :=
  ⟨str "POST", some (str "John Smith"), some (str "not-an-email"),
   some (str "123"), none, none⟩

/-- A submission with valid name and email but invalid phone and no
file: the phone-format check is its first failing check. -/
def reqBadPhone : SubmitReq :=
  ⟨str "POST", some (str "John Smith"), some (str "j@s.io"),
   some (str "123"), none, none⟩

/-- A submission with valid name, email and phone but an invalid
linkedin and no file: the linkedin check is its first failing check. -/
def reqBadLinkedin : SubmitReq :=
  ⟨str "POST", some (str "John Smith"), some (str "j@s.io"),
   some (str "1234567890"), some (str "http://example.com/x"), none⟩

/-- A submission valid in every text field but carrying no file. -/
def reqNoFile : SubmitReq :=
  ⟨str "POST", some (str "John Smith"), some (str "j@s.io"),
   some (str "1234567890"), none, none⟩

/-! ### Helper lemmas about the string primitives -/

/-- The local/domain-atom shape of the email regex, as the spec words it:
`s` is `a ++ "@" ++ b ++ "." ++ c` with `a`, `b`, `c` non-empty strings of
non-whitespace, non-`@` characters. -/
def emailShape (s : Str) : Prop :=
  ∃ a b c : Str, a ≠ [] ∧ b ≠ [] ∧ c ≠ [] ∧
    (∀ x ∈ a, emailToken x = true) ∧ (∀ x ∈ b, emailToken x = true) ∧
    (∀ x ∈ c, emailToken x = true) ∧
    s = a ++ '@' :: (b ++ '.' :: c)

lemma dropWhile_head_false {p : Char → Bool} :
    ∀ {l xs : List Char} {x : Char}, l.dropWhile p = x :: xs → p x = false := by
  intro l
  induction l with
  | nil => intro xs x h; simp [List.dropWhile] at h
  | cons a t ih =>
    intro xs x h
    by_cases hp : p a
    · rw [List.dropWhile_cons_of_pos hp] at h
      exact ih h
    · rw [List.dropWhile_cons_of_neg hp] at h
      obtain ⟨rfl, rfl⟩ := List.cons.inj h
      simpa using hp

lemma takeWhile_prepend {p : Char → Bool} :
    ∀ (a : Str) (x : Char) (t : Str), (∀ y ∈ a, p y = true) → p x = false →
    (a ++ x :: t).takeWhile p = a ∧ (a ++ x :: t).dropWhile p = x :: t := by
  intro a
  induction a with
  | nil =>
    intro x t _ hx
    refine ⟨?_, ?_⟩
    · rw [List.nil_append, List.takeWhile_cons_of_neg (by simp [hx])]
    · rw [List.nil_append, List.dropWhile_cons_of_neg (by simp [hx])]
  | cons y ys ih =>
    intro x t ha hx
    have hy : p y = true := ha y (by simp)
    have hih := ih x t (fun z hz => ha z (by simp [hz])) hx
    refine ⟨?_, ?_⟩
    · rw [List.cons_append, List.takeWhile_cons_of_pos hy, hih.1]
    · rw [List.cons_append, List.dropWhile_cons_of_pos hy, hih.2]

lemma dropWhile_of_all_neg {p : Char → Bool} {l : Str}
    (h : ∀ c ∈ l, p c = false) : l.dropWhile p = l := by
  cases l with
  | nil => rfl
  | cons a t =>
    rw [List.dropWhile_cons_of_neg]
    simp [h a (by simp)]

lemma trimStr_of_no_ws {s : Str} (h : ∀ c ∈ s, jsWhitespace c = false) :
    trimStr s = s := by
  unfold trimStr dropTrailing
  rw [dropWhile_of_all_neg h,
      dropWhile_of_all_neg (fun c hc => h c (List.mem_reverse.mp hc)),
      List.reverse_reverse]

lemma isDigit_bounds {c : Char} (h : c.isDigit = true) :
    48 ≤ c.toNat ∧ c.toNat ≤ 57 := by
  simp only [Char.isDigit, Bool.and_eq_true, decide_eq_true_eq] at h
  obtain ⟨h1, h2⟩ := h
  exact ⟨h1, h2⟩

lemma digit_not_ws {c : Char} (h : c.isDigit = true) : jsWhitespace c = false := by
  obtain ⟨h1, h2⟩ := isDigit_bounds h
  unfold jsWhitespace
  simp only [Bool.or_eq_false_iff, decide_eq_false_iff_not, Bool.and_eq_false_iff]
  omega

lemma validatePhone_trim {p : Str} (h : validatePhone p = true) : trimStr p = p := by
  unfold validatePhone at h
  simp only [Bool.and_eq_true, decide_eq_true_eq] at h
  exact trimStr_of_no_ws fun c hc => digit_not_ws ((List.all_eq_true.mp h.2) c hc)

lemma emailToken_split {c : Char} (h : emailToken c = true) :
    jsWhitespace c = false ∧ c ≠ '@' := by
  unfold emailToken at h
  simp only [Bool.and_eq_true, Bool.not_eq_true', beq_eq_false_iff_ne] at h
  exact h

lemma email_forward {s : Str} (h : validateEmail s = true) : emailShape s := by
  unfold validateEmail at h
  split at h
  · exact absurd h (by simp)
  · rename_i a r hdw
    simp only [Bool.and_eq_true] at h
    obtain ⟨⟨hne, hws⟩, htail⟩ := h
    unfold emailTail at htail
    simp only [Bool.and_eq_true] at htail
    obtain ⟨⟨hat, hrws⟩, hdot⟩ := htail
    have ha : a = '@' := by
      have h0 := dropWhile_head_false hdw
      simpa using h0
    subst ha
    have hs : s = s.takeWhile (fun c => !(c == '@')) ++ '@' :: r := by
      conv_lhs => rw [← List.takeWhile_append_dropWhile (fun c => !(c == '@')) s]
      rw [hdw]
    have hrtok : ∀ x ∈ r, emailToken x = true := by
      intro x hx
      have hxw : jsWhitespace x = false := by
        have := (List.all_eq_true.mp hrws) x hx; simpa using this
      have hxat : x ≠ '@' := by
        intro he; subst he
        exact absurd hx (by simpa using hat)
      simp [emailToken, hxw, hxat]
    have hdm : '.' ∈ (r.drop 1).dropLast := by
      simpa using hdot
    cases r with
    | nil => simp at hdm
    | cons r0 r1 =>
      have hdm1 : '.' ∈ r1.dropLast := by simpa using hdm
      have hr1ne : r1 ≠ [] := by
        intro he; subst he; simp at hdm1
      obtain ⟨u, v, huv⟩ := List.append_of_mem hdm1
      have hr1 : r1 = (u ++ '.' :: v) ++ [r1.getLast hr1ne] := by
        rw [← huv]
        exact (List.dropLast_append_getLast hr1ne).symm
      set lp := s.takeWhile (fun c => !(c == '@')) with hlp
      refine ⟨lp, r0 :: u, v ++ [r1.getLast hr1ne],
        ?_, by simp, by simp, ?_, ?_, ?_, ?_⟩
      · intro he; rw [he] at hne; simp at hne
      · intro x hx
        have hxp := List.mem_takeWhile_imp hx
        have hxw : jsWhitespace x = false := by
          have := (List.all_eq_true.mp hws) x hx; simpa using this
        have hxat : x ≠ '@' := by simpa using hxp
        simp [emailToken, hxw, hxat]
      · intro x hx
        apply hrtok
        rcases List.mem_cons.mp hx with rfl | hxu
        · simp
        · have hx1 : x ∈ r1 := by rw [hr1]; simp [hxu]
          simp [hx1]
      · intro x hx
        apply hrtok
        have hx1 : x ∈ r1 := by
          rw [hr1]
          rcases List.mem_append.mp hx with hv | hl
          · simp [hv]
          · simp only [List.mem_singleton] at hl
            simp [hl]
        simp [hx1]
      · conv_lhs => rw [hs, hr1]
        simp

lemma email_backward {s : Str} (h : emailShape s) : validateEmail s = true := by
  obtain ⟨a, b, c, hane, hbne, hcne, hta, htb, htc, rfl⟩ := h
  have hpa : ∀ y ∈ a, (fun c => !(c == '@')) y = true := by
    intro y hy
    have hy2 := (emailToken_split (hta y hy)).2
    simp [hy2]
  have h1 := takeWhile_prepend a '@' (b ++ '.' :: c) hpa (by simp)
  unfold validateEmail
  rw [h1.2]
  rw [h1.1]
  simp only [Bool.and_eq_true]
  refine ⟨⟨by simpa using hane, ?_⟩, ?_⟩
  · rw [List.all_eq_true]
    intro x hx
    simp [(emailToken_split (hta x hx)).1]
  · unfold emailTail
    simp only [Bool.and_eq_true]
    have hnotat : '@' ∉ b ++ '.' :: c := by
      intro hmem
      rcases List.mem_append.mp hmem with hb | hc2
      · exact (emailToken_split (htb _ hb)).2 rfl
      · rcases List.mem_cons.mp hc2 with he | hc3
        · exact absurd he.symm (by decide)
        · exact (emailToken_split (htc _ hc3)).2 rfl
    refine ⟨⟨by simp [hnotat], ?_⟩, ?_⟩
    · rw [List.all_eq_true]
      intro x hx
      rcases List.mem_append.mp hx with hb | hc2
      · simp [(emailToken_split (htb _ hb)).1]
      · rcases List.mem_cons.mp hc2 with rfl | hc3
        · simp [jsWhitespace]
        · simp [(emailToken_split (htc _ hc3)).1]
    · cases b with
      | nil => exact absurd rfl hbne
      | cons b0 b2 =>
        cases c with
        | nil => exact absurd rfl hcne
        | cons c0 c2 =>
          have hd : ((b0 :: b2 ++ '.' :: c0 :: c2).drop 1).dropLast
              = b2 ++ '.' :: (c0 :: c2).dropLast := by
            rw [List.cons_append, List.drop_one, List.tail_cons,
                List.dropLast_append_of_ne_nil b2 (by simp)]
            rfl
          rw [hd]
          simp

lemma validateEmail_iff_shape (s : Str) : validateEmail s = true ↔ emailShape s :=
  ⟨email_forward, email_backward⟩

lemma emailShape_no_ws {s : Str} (h : emailShape s) :
    ∀ x ∈ s, jsWhitespace x = false := by
  obtain ⟨a, b, c, _, _, _, hta, htb, htc, rfl⟩ := h
  intro x hx
  rcases List.mem_append.mp hx with hxa | hx2
  · exact (emailToken_split (hta _ hxa)).1
  · rcases List.mem_cons.mp hx2 with rfl | hx3
    · simp [jsWhitespace]
    · rcases List.mem_append.mp hx3 with hxb | hx4
      · exact (emailToken_split (htb _ hxb)).1
      · rcases List.mem_cons.mp hx4 with rfl | hxc
        · simp [jsWhitespace]
        · exact (emailToken_split (htc _ hxc)).1


/-! ### Handler structure lemmas -/

lemma afterUpload_applicants (st : ServerState) (req : SubmitReq) :
    (afterUpload st req).applicants = st.applicants := by
  cases hf : req.file <;> simp [afterUpload, hf]

lemma handler_method_guard {st req faults} (hm : ¬ (req.method = str "POST")) :
    handler st req faults = ⟨.methodNotAllowed, st⟩ := by
  unfold handler
  rw [if_neg hm]

lemma handler_of_fieldError {st req faults e} (hm : req.method = str "POST")
    (hfe : fieldError req = some e) :
    handler st req faults = ⟨.badRequest e, afterUpload st req⟩ := by
  unfold handler
  rw [if_pos hm, hfe]

lemma handler_post_file (st : ServerState) (req : SubmitReq) (faults : Faults)
    {f} (hm : req.method = str "POST")
    (hfe : fieldError req = none) (hf : req.file = some f) :
    handler st req faults = dupAndCreate st.applicants (afterUpload st req) req f faults := by
  unfold handler
  rw [if_pos hm, hfe, hf]

lemma fullNameCheck_some {o e} (h : fullNameCheck o = some e) :
    e = .fullNameRequired := by
  unfold fullNameCheck at h
  split_ifs at h
  exact (Option.some.inj h).symm

lemma emailCheck_some {o e} (h : emailCheck o = some e) :
    e = .emailRequired ∨ e = .invalidEmail := by
  unfold emailCheck at h
  split_ifs at h
  · exact Or.inl (Option.some.inj h).symm
  · exact Or.inr (Option.some.inj h).symm

lemma phoneCheck_some {o e} (h : phoneCheck o = some e) :
    e = .phoneRequired ∨ e = .invalidPhone := by
  unfold phoneCheck at h
  split_ifs at h
  · exact Or.inl (Option.some.inj h).symm
  · exact Or.inr (Option.some.inj h).symm

lemma linkedinCheck_some {o e} (h : linkedinCheck o = some e) :
    e = .invalidLinkedin := by
  unfold linkedinCheck at h
  split_ifs at h
  exact (Option.some.inj h).symm

lemma fileCheck_some {o e} (h : fileCheck o = some e) :
    e = .resumeRequired := by
  unfold fileCheck at h
  split_ifs at h
  exact (Option.some.inj h).symm

lemma fieldError_some_cases {req e} (h : fieldError req = some e) :
    e = .fullNameRequired ∨ e = .emailRequired ∨ e = .invalidEmail ∨
    e = .phoneRequired ∨ e = .invalidPhone ∨ e = .invalidLinkedin ∨
    e = .resumeRequired := by
  unfold fieldError at h
  cases h1 : fullNameCheck req.fullName with
  | some e1 =>
    rw [h1] at h
    simp only [firstSome] at h
    exact Or.inl ((Option.some.inj h).symm.trans (fullNameCheck_some h1))
  | none =>
  rw [h1] at h
  cases h2 : emailCheck req.email with
  | some e2 =>
    rw [h2] at h
    simp only [firstSome] at h
    rcases emailCheck_some h2 with h' | h'
    · exact Or.inr (Or.inl ((Option.some.inj h).symm.trans h'))
    · exact Or.inr (Or.inr (Or.inl ((Option.some.inj h).symm.trans h')))
  | none =>
  rw [h2] at h
  cases h3 : phoneCheck req.phone with
  | some e3 =>
    rw [h3] at h
    simp only [firstSome] at h
    rcases phoneCheck_some h3 with h' | h'
    · exact Or.inr (Or.inr (Or.inr (Or.inl ((Option.some.inj h).symm.trans h'))))
    · exact Or.inr (Or.inr (Or.inr (Or.inr (Or.inl ((Option.some.inj h).symm.trans h')))))
  | none =>
  rw [h3] at h
  cases h4 : linkedinCheck req.linkedin with
  | some e4 =>
    rw [h4] at h
    simp only [firstSome] at h
    exact Or.inr (Or.inr (Or.inr (Or.inr (Or.inr (Or.inl
      ((Option.some.inj h).symm.trans (linkedinCheck_some h4)))))))
  | none =>
  rw [h4] at h
  cases h5 : fileCheck req.file with
  | some e5 =>
    rw [h5] at h
    simp only [firstSome] at h
    exact Or.inr (Or.inr (Or.inr (Or.inr (Or.inr (Or.inr
      ((Option.some.inj h).symm.trans (fileCheck_some h5)))))))
  | none =>
    rw [h5] at h
    simp [firstSome] at h

lemma fieldError_none_parts {req : SubmitReq} (h : fieldError req = none) :
    fullNameCheck req.fullName = none ∧ emailCheck req.email = none ∧
    phoneCheck req.phone = none ∧ linkedinCheck req.linkedin = none ∧
    fileCheck req.file = none := by
  unfold fieldError at h
  cases h1 : fullNameCheck req.fullName with
  | some e1 => rw [h1] at h; simp [firstSome] at h
  | none =>
  rw [h1] at h
  cases h2 : emailCheck req.email with
  | some e2 => rw [h2] at h; simp [firstSome] at h
  | none =>
  rw [h2] at h
  cases h3 : phoneCheck req.phone with
  | some e3 => rw [h3] at h; simp [firstSome] at h
  | none =>
  rw [h3] at h
  cases h4 : linkedinCheck req.linkedin with
  | some e4 => rw [h4] at h; simp [firstSome] at h
  | none =>
  rw [h4] at h
  cases h5 : fileCheck req.file with
  | some e5 => rw [h5] at h; simp [firstSome] at h
  | none => exact ⟨rfl, rfl, rfl, rfl, rfl⟩

lemma phoneCheck_none_inv {o} (h : phoneCheck o = none) :
    ∃ p, o = some p ∧ validatePhone p = true := by
  unfold phoneCheck at h
  split_ifs at h with h1 h2
  cases o with
  | none => simp [presentNonEmpty] at h1
  | some p => exact ⟨p, rfl, by simpa using h2⟩

lemma handler_success_inv {st : ServerState} {req : SubmitReq} {faults : Faults}
    {id : Nat} (h : (handler st req faults).response = .success id) :
    ∃ f, req.file = some f ∧ fieldError req = none ∧
      handler st req faults =
        ⟨.success (st.applicants.length + 1),
         ⟨st.applicants ++ [mkApplicant (st.applicants.length + 1) req f],
          st.files ++ [f.path]⟩⟩ := by
  by_cases hm : req.method = str "POST"
  case neg =>
    rw [handler_method_guard hm] at h
    simp at h
  case pos =>
  cases hfe : fieldError req with
  | some e =>
    rw [handler_of_fieldError hm hfe] at h
    simp at h
  | none =>
  cases hf : req.file with
  | none =>
    unfold handler at h
    rw [if_pos hm, hfe, hf] at h
    simp at h
  | some f =>
  have hmain := handler_post_file st req faults hm hfe hf
  rw [hmain] at h
  unfold dupAndCreate at h
  cases hfind1 : st.applicants.find? (fun a => a.email == req.email.getD []) with
  | some a0 =>
    rw [hfind1] at h
    cases hu : faults.unlinkFails <;> rw [hu] at h <;> simp at h
  | none =>
  rw [hfind1] at h
  cases hfind2 : st.applicants.find? (fun a => a.phone == req.phone.getD []) with
  | some a0 =>
    rw [hfind2] at h
    cases hu : faults.unlinkFails <;> rw [hu] at h <;> simp at h
  | none =>
  rw [hfind2] at h
  cases hcf : faults.createFails with
  | true =>
    rw [hcf] at h
    cases hu : faults.unlinkFails <;> rw [hu] at h <;> simp at h
  | false =>
    refine ⟨f, rfl, rfl, ?_⟩
    rw [hmain]
    unfold dupAndCreate
    rw [hfind1, hfind2, hcf]
    unfold afterUpload
    rw [hf]
    rfl


/-! ### Claim theorems -/

/-- C3: exactly one field error is reported, determined by the fixed
check order full name, email, phone, linkedin, file-present: a missing
full name wins over every later field regardless of their values, and
each later check's message is the one reported exactly when all earlier
checks pass and it is the first to fail. -/
theorem c3_first_violation_wins :
    (∀ st req faults, req.method = str "POST" →
       presentNonEmpty req.fullName = false →
       (handler st req faults).response = .badRequest .fullNameRequired) ∧
    (∀ st req faults e, req.method = str "POST" →
       fullNameCheck req.fullName = none → emailCheck req.email = some e →
       (handler st req faults).response = .badRequest e) ∧
    (∀ st req faults e, req.method = str "POST" →
       fullNameCheck req.fullName = none → emailCheck req.email = none →
       phoneCheck req.phone = some e →
       (handler st req faults).response = .badRequest e) ∧
    (∀ st req faults e, req.method = str "POST" →
       fullNameCheck req.fullName = none → emailCheck req.email = none →
       phoneCheck req.phone = none → linkedinCheck req.linkedin = some e →
       (handler st req faults).response = .badRequest e) ∧
    (∀ st req faults, req.method = str "POST" →
       fullNameCheck req.fullName = none → emailCheck req.email = none →
       phoneCheck req.phone = none → linkedinCheck req.linkedin = none →
       req.file = none →
       (handler st req faults).response = .badRequest .resumeRequired) := by
  refine ⟨?_, ?_, ?_, ?_, ?_⟩
  · intro st req faults hm hfn
    have h1 : fullNameCheck req.fullName = some .fullNameRequired := by
      unfold fullNameCheck
      rw [hfn]
      simp
    have hfe : fieldError req = some .fullNameRequired := by
      unfold fieldError
      rw [h1]
      simp [firstSome]
    rw [handler_of_fieldError hm hfe]
  · intro st req faults e hm h1 h2
    have hfe : fieldError req = some e := by
      unfold fieldError
      rw [h1, h2]
      simp [firstSome]
    rw [handler_of_fieldError hm hfe]
  · intro st req faults e hm h1 h2 h3
    have hfe : fieldError req = some e := by
      unfold fieldError
      rw [h1, h2, h3]
      simp [firstSome]
    rw [handler_of_fieldError hm hfe]
  · intro st req faults e hm h1 h2 h3 h4
    have hfe : fieldError req = some e := by
      unfold fieldError
      rw [h1, h2, h3, h4]
      simp [firstSome]
    rw [handler_of_fieldError hm hfe]
  · intro st req faults hm h1 h2 h3 h4 hfile
    have h5 : fileCheck req.file = some .resumeRequired := by
      unfold fileCheck
      rw [hfile]
      simp
    have hfe : fieldError req = some .resumeRequired := by
      unfold fieldError
      rw [h1, h2, h3, h4, h5]
      simp [firstSome]
    rw [handler_of_fieldError hm hfe]

/-- C3 witness: one concrete submission per check position: a missing
full name wins over an invalid email and phone, and each later check's
error is reported exactly when the earlier checks pass. -/
theorem c3_witness :
    (handler emptyState reqMissingName noFaults).response =
      .badRequest .fullNameRequired ∧
    (handler emptyState reqBadEmail noFaults).response =
      .badRequest .invalidEmail ∧
    (handler emptyState reqBadPhone noFaults).response =
      .badRequest .invalidPhone ∧
    (handler emptyState reqBadLinkedin noFaults).response =
      .badRequest .invalidLinkedin ∧
    (handler emptyState reqNoFile noFaults).response =
      .badRequest .resumeRequired :=
  ⟨c3_first_violation_wins.1 emptyState reqMissingName noFaults rfl (by decide),
   c3_first_violation_wins.2.1 emptyState reqBadEmail noFaults .invalidEmail
     rfl (by decide) (by decide),
   c3_first_violation_wins.2.2.1 emptyState reqBadPhone noFaults .invalidPhone
     rfl (by decide) (by decide) (by decide),
   c3_first_violation_wins.2.2.2.1 emptyState reqBadLinkedin noFaults
     .invalidLinkedin rfl (by decide) (by decide) (by decide) (by decide),
   c3_first_violation_wins.2.2.2.2 emptyState reqNoFile noFaults
     rfl (by decide) (by decide) (by decide) (by decide) rfl⟩

/-- C9: for every request whose method is not POST the handler returns
the method-not-allowed failure and performs no side effects: the file
store and the applicant table are unchanged. -/
theorem c9_method_guard :
    ∀ st req faults, req.method ≠ str "POST" →
      (handler st req faults).response = .methodNotAllowed ∧
      (handler st req faults).state.files = st.files ∧
      (handler st req faults).state.applicants = st.applicants := by
  intro st req faults hm
  rw [handler_method_guard hm]
  exact ⟨rfl, rfl, rfl⟩

/-- C9 witness: a GET submission against a populated state is rejected
with method-not-allowed and changes nothing. -/
theorem c9_witness :
    (handler stateWithJane reqGet noFaults).response = .methodNotAllowed ∧
    (handler stateWithJane reqGet noFaults).state.files = stateWithJane.files ∧
    (handler stateWithJane reqGet noFaults).state.applicants =
      stateWithJane.applicants :=
  c9_method_guard stateWithJane reqGet noFaults (by decide)

/-- C6: the phone field passes validation exactly when it is a string of
exactly 10 decimal digits; `1234567890` is accepted end to end while
`123456789`, `12345678901` and `123-456-7890` each draw the phone-format
error. -/
theorem c6_phone_ten_digits :
    (∀ p : Str, validatePhone p = true ↔
       (p.length = 10 ∧ ∀ c ∈ p, c.isDigit = true)) ∧
    (handler emptyState (phoneReq "1234567890") noFaults).response = .success 1 ∧
    (handler emptyState (phoneReq "123456789") noFaults).response =
      .badRequest .invalidPhone ∧
    (handler emptyState (phoneReq "12345678901") noFaults).response =
      .badRequest .invalidPhone ∧
    (handler emptyState (phoneReq "123-456-7890") noFaults).response =
      .badRequest .invalidPhone := by
  refine ⟨?_, by decide, by decide, by decide, by decide⟩
  intro p
  simp [validatePhone, List.all_eq_true]

/-- C7: email validation fails exactly when the email is absent or
whitespace-only, or does not have the shape `a@b.c` with `a`, `b`, `c`
non-empty runs of non-space, non-`@` characters; every string of that
shape passes. -/
theorem c7_email_shape_validation :
    emailCheck none = some .emailRequired ∧
    emailCheck (some (str "   ")) = some .emailRequired ∧
    (∀ s : Str, emailCheck (some s) = none ↔ emailShape s) := by
  refine ⟨rfl, by decide, ?_⟩
  intro s
  constructor
  · intro h
    unfold emailCheck at h
    split_ifs at h with h1 h2
    exact (validateEmail_iff_shape s).mp (by simpa using h2)
  · intro hs
    have hv : validateEmail s = true := (validateEmail_iff_shape s).mpr hs
    have htr : trimStr s = s := trimStr_of_no_ws (emailShape_no_ws hs)
    have hne : s ≠ [] := by
      obtain ⟨a, b, c, ha, _, _, _, _, _, heq⟩ := hs
      rw [heq]; simp
    have hp : presentNonEmpty (some s) = true := by
      show (!(trimStr s).isEmpty) = true
      rw [htr]
      simpa using hne
    unfold emailCheck
    simp [hp, hv]

/-- C8: the stored file name is the millisecond timestamp, a dash, and
the sanitized original name, where sanitization maps every character
outside `[A-Za-z0-9.-]` to an underscore, keeps every character inside
the class, preserves length, and yields only characters of the class or
underscore. -/
theorem c8_stored_filename :
    ∀ (now : Nat) (name : Str),
      storedFileName now name =
        Nat.toDigits 10 now ++ '-' :: sanitizeName name ∧
      (sanitizeName name).length = name.length ∧
      (sanitizeName name).all (fun c => allowedFileChar c || c == '_') = true ∧
      ∀ i : Nat, (sanitizeName name)[i]? =
        (name[i]?).map (fun c => if allowedFileChar c then c else '_') := by
  intro now name
  refine ⟨rfl, by simp [sanitizeName], ?_, ?_⟩
  · rw [List.all_eq_true]
    intro c hc
    obtain ⟨x, hx, rfl⟩ := List.mem_map.mp hc
    by_cases hx2 : allowedFileChar x <;> simp [hx2]
  · intro i
    simp [sanitizeName]

/-- C5: every accepted submission creates exactly one record whose
full name is the submitted name trimmed, email the submitted email
trimmed and lower-cased, phone the submitted phone trimmed, linkedin the
submitted linkedin trimmed or null when absent or trims to empty, and
resume path `resumes/` followed by the stored file's generated name. -/
theorem c5_created_record_fields :
    ∀ st req faults fn em ph f id,
      req.fullName = some fn → req.email = some em → req.phone = some ph →
      req.file = some f →
      (handler st req faults).response = .success id →
      ∃ a : Applicant,
        (handler st req faults).state.applicants = st.applicants ++ [a] ∧
        a.full_name = trimStr fn ∧
        a.email = lowerStr (trimStr em) ∧
        a.phone = trimStr ph ∧
        a.linkedin = (match req.linkedin with
                      | none => none
                      | some l => if (trimStr l).isEmpty then none
                                  else some (trimStr l)) ∧
        a.resume_path = str "resumes/" ++ f.filename := by
  intro st req faults fn em ph f id hfn hem hph hf hsucc
  obtain ⟨f2, hf2, hfe, heq⟩ := handler_success_inv hsucc
  rw [hf] at hf2
  have hff : f2 = f := (Option.some.inj hf2).symm
  subst hff
  refine ⟨mkApplicant (st.applicants.length + 1) req f2, ?_, ?_, ?_, ?_, ?_, ?_⟩
  · rw [heq]
  · simp [mkApplicant, hfn]
  · simp [mkApplicant, hem]
  · simp [mkApplicant, hph]
  · cases hl : req.linkedin <;> simp [mkApplicant, jsOptTrim, hl]
  · simp [mkApplicant]

/-- C5 witness: a concrete accepted submission with untrimmed full name,
mixed-case email and spaced linkedin produces a record with the
normalized field values. -/
theorem c5_witness :
    ∃ a : Applicant,
      (handler emptyState reqMessy noFaults).state.applicants =
        emptyState.applicants ++ [a] ∧
      a.full_name = trimStr (str "  John Smith  ") ∧
      a.email = lowerStr (trimStr (str "John@Example.com")) ∧
      a.phone = trimStr (str "3333333333") ∧
      a.linkedin = (match reqMessy.linkedin with
                    | none => none
                    | some l => if (trimStr l).isEmpty then none
                                else some (trimStr l)) ∧
      a.resume_path = str "resumes/" ++ sampleFile.filename :=
  c5_created_record_fields emptyState reqMessy noFaults
    (str "  John Smith  ") (str "John@Example.com") (str "3333333333")
    sampleFile 1 rfl rfl rfl rfl (by decide)

/-- C10: a phone string passing the format check contains only digits
and equals its own trimmed form, so the raw submitted phone used by the
duplicate-phone lookup and the trimmed phone stored in the created
record are the identical string. -/
theorem c10_phone_lookup_store_consistent :
    (∀ p : Str, validatePhone p = true → trimStr p = p) ∧
    (∀ st req faults ph id, req.phone = some ph →
       (handler st req faults).response = .success id →
       ∃ a : Applicant,
         (handler st req faults).state.applicants = st.applicants ++ [a] ∧
         a.phone = ph) := by
  constructor
  · exact fun p h => validatePhone_trim h
  · intro st req faults ph id hph hsucc
    obtain ⟨f, hf, hfe, heq⟩ := handler_success_inv hsucc
    have hparts := fieldError_none_parts hfe
    obtain ⟨p2, hp2, hval⟩ := phoneCheck_none_inv hparts.2.2.1
    rw [hph] at hp2
    have hpp : p2 = ph := (Option.some.inj hp2).symm
    subst hpp
    refine ⟨mkApplicant (st.applicants.length + 1) req f, ?_, ?_⟩
    · rw [heq]
    · simp only [mkApplicant, hph, Option.getD_some]
      exact validatePhone_trim hval

/-- C10 witness: the digit string `1234567890` is its own trimmed form,
and a concrete accepted submission stores exactly the submitted phone
string. -/
theorem c10_witness :
    trimStr (str "1234567890") = str "1234567890" ∧
    ∃ a : Applicant,
      (handler emptyState reqPhoneValid noFaults).state.applicants =
        emptyState.applicants ++ [a] ∧
      a.phone = str "4444444444" :=
  ⟨c10_phone_lookup_store_consistent.1 (str "1234567890") (by decide),
   c10_phone_lookup_store_consistent.2 emptyState reqPhoneValid noFaults
     (str "4444444444") 1 rfl (by decide)⟩


/-- An additional fixture: a valid submission with the same phone as
`applicantJane` but a different email. -/
def reqDupPhone : SubmitReq :=
  ⟨str "POST", some (str "John Smith"), some (str "j2@s.io"),
   some (str "1111111111"), none, some sampleFile⟩

/-- C1 counterexample: a submission whose file was stored but whose full
name is missing is answered with the missing-full-name error while the
stored file remains in durable storage — the handler does not delete it
on field-validation failures. -/
theorem c1_counterexample :
    (handler emptyState reqMissingName noFaults).response =
      .badRequest .fullNameRequired ∧
    sampleFile.path ∈ (handler emptyState reqMissingName noFaults).state.files := by
  decide

/-- C1 amended: the stored file is deleted exactly on the duplicate-email,
duplicate-phone and record-creation-failure paths (when deletion itself
succeeds); field-validation failures after storage leave the file in
place. -/
theorem c1_cleanup_scope :
    ∀ st req faults f, faults.unlinkFails = false → req.file = some f →
      ((handler st req faults).response = .badRequest .duplicateEmail ∨
       (handler st req faults).response = .badRequest .duplicatePhone ∨
       (handler st req faults).response = .internalError) →
      f.path ∉ (handler st req faults).state.files := by
  intro st req faults f hu hf hresp
  by_cases hm : req.method = str "POST"
  case neg =>
    rw [handler_method_guard hm] at hresp
    rcases hresp with h | h | h <;> simp at h
  case pos =>
  cases hfe : fieldError req with
  | some e =>
    rw [handler_of_fieldError hm hfe] at hresp
    have he := fieldError_some_cases hfe
    rcases he with h' | h' | h' | h' | h' | h' | h' <;> subst h' <;>
      rcases hresp with h | h | h <;> simp at h
  | none =>
    have hmain := handler_post_file st req faults hm hfe hf
    rw [hmain] at hresp ⊢
    unfold dupAndCreate at hresp ⊢
    cases hfind1 : st.applicants.find? (fun a => a.email == req.email.getD []) with
    | some a0 =>
      rw [hu] at hresp ⊢
      simp [removeFile, List.mem_filter]
    | none =>
    cases hfind2 : st.applicants.find? (fun a => a.phone == req.phone.getD []) with
    | some a0 =>
      rw [hu] at hresp ⊢
      simp [removeFile, List.mem_filter]
    | none =>
    rw [hu] at hresp ⊢
    cases hcf : faults.createFails with
    | true =>
      simp [removeFile, List.mem_filter]
    | false =>
      rcases hresp with h | h | h <;> simp [hcf, hfind1, hfind2] at h

/-- C1 witness: after a duplicate-email rejection the stored file is no
longer in durable storage. -/
theorem c1_cleanup_scope_witness :
    sampleFile.path ∉ (handler stateWithJane reqDupEmail noFaults).state.files :=
  c1_cleanup_scope stateWithJane reqDupEmail noFaults sampleFile rfl rfl
    (Or.inl (by decide))

/-- C2 counterexample: against a state holding an accepted applicant with
stored email `a@b.com`, a valid submission with email `A@B.com` is not
rejected as duplicate: it succeeds and a second record is created. -/
theorem c2_counterexample :
    (handler stateWithJane reqUpperEmail noFaults).response = .success 2 ∧
    (handler stateWithJane reqUpperEmail noFaults).state.applicants.length = 2 := by
  decide

/-- C2 amended: duplicate-email detection compares the as-submitted email
string exactly (case-sensitively) against stored emails: an exact match
is rejected with the duplicate-email error and no record is created, a
submission whose phone matches an existing applicant (and whose email
matches none) is rejected with the duplicate-phone error and no record is
created, and a submission matching no stored email or phone is accepted. -/
theorem c2_exact_match_duplicates :
    (∀ st req faults f em, req.method = str "POST" → fieldError req = none →
       req.file = some f → req.email = some em → faults.unlinkFails = false →
       (∃ a ∈ st.applicants, a.email = em) →
       (handler st req faults).response = .badRequest .duplicateEmail ∧
       (handler st req faults).state.applicants = st.applicants) ∧
    (∀ st req faults f ph, req.method = str "POST" → fieldError req = none →
       req.file = some f → req.phone = some ph → faults.unlinkFails = false →
       (∀ a ∈ st.applicants, a.email ≠ req.email.getD []) →
       (∃ a ∈ st.applicants, a.phone = ph) →
       (handler st req faults).response = .badRequest .duplicatePhone ∧
       (handler st req faults).state.applicants = st.applicants) ∧
    (∀ st req faults f, req.method = str "POST" → fieldError req = none →
       req.file = some f → faults.createFails = false →
       (∀ a ∈ st.applicants, a.email ≠ req.email.getD []) →
       (∀ a ∈ st.applicants, a.phone ≠ req.phone.getD []) →
       (handler st req faults).response = .success (st.applicants.length + 1) ∧
       (handler st req faults).state.applicants.length =
         st.applicants.length + 1) := by
  refine ⟨?_, ?_, ?_⟩
  · intro st req faults f em hm hfe hf hem hu hdup
    have hfind : ∃ a0, st.applicants.find?
        (fun a => a.email == req.email.getD []) = some a0 := by
      cases hfind : st.applicants.find? (fun a => a.email == req.email.getD []) with
      | some a0 => exact ⟨a0, rfl⟩
      | none =>
        rw [List.find?_eq_none] at hfind
        obtain ⟨a, ha, hae⟩ := hdup
        exact absurd (by simp [hem, hae] :
          (a.email == req.email.getD []) = true) (hfind a ha)
    obtain ⟨a0, hfind⟩ := hfind
    have hmain := handler_post_file st req faults hm hfe hf
    rw [hmain]
    unfold dupAndCreate
    rw [hfind, hu]
    refine ⟨by simp, by simp [removeFile, afterUpload_applicants]⟩
  · intro st req faults f ph hm hfe hf hph hu hnodup hdup
    have hfind1 : st.applicants.find?
        (fun a => a.email == req.email.getD []) = none :=
      List.find?_eq_none.mpr (fun a ha => by simp [hnodup a ha])
    have hfind2 : ∃ a0, st.applicants.find?
        (fun a => a.phone == req.phone.getD []) = some a0 := by
      cases hfind : st.applicants.find? (fun a => a.phone == req.phone.getD []) with
      | some a0 => exact ⟨a0, rfl⟩
      | none =>
        rw [List.find?_eq_none] at hfind
        obtain ⟨a, ha, hap⟩ := hdup
        exact absurd (by simp [hph, hap] :
          (a.phone == req.phone.getD []) = true) (hfind a ha)
    obtain ⟨a0, hfind2⟩ := hfind2
    have hmain := handler_post_file st req faults hm hfe hf
    rw [hmain]
    unfold dupAndCreate
    rw [hfind1, hfind2, hu]
    refine ⟨by simp, by simp [removeFile, afterUpload_applicants]⟩
  · intro st req faults f hm hfe hf hcf hnoem hnoph
    have hfind1 : st.applicants.find?
        (fun a => a.email == req.email.getD []) = none :=
      List.find?_eq_none.mpr (fun a ha => by simp [hnoem a ha])
    have hfind2 : st.applicants.find?
        (fun a => a.phone == req.phone.getD []) = none :=
      List.find?_eq_none.mpr (fun a ha => by simp [hnoph a ha])
    have hmain := handler_post_file st req faults hm hfe hf
    rw [hmain]
    unfold dupAndCreate
    rw [hfind1, hfind2, hcf]
    refine ⟨by simp [afterUpload_applicants], by simp [afterUpload_applicants]⟩

/-- C2 witness: an exact duplicate email is rejected as duplicate-email,
a duplicate phone with fresh email is rejected as duplicate-phone, and
the upper-cased variant of a stored email is accepted. -/
theorem c2_exact_match_duplicates_witness :
    ((handler stateWithJane reqDupEmail noFaults).response =
        .badRequest .duplicateEmail ∧
     (handler stateWithJane reqDupEmail noFaults).state.applicants =
        stateWithJane.applicants) ∧
    ((handler stateWithJane reqDupPhone noFaults).response =
        .badRequest .duplicatePhone ∧
     (handler stateWithJane reqDupPhone noFaults).state.applicants =
        stateWithJane.applicants) ∧
    ((handler stateWithJane reqUpperEmail noFaults).response =
        .success (stateWithJane.applicants.length + 1) ∧
     (handler stateWithJane reqUpperEmail noFaults).state.applicants.length =
        stateWithJane.applicants.length + 1) :=
  ⟨c2_exact_match_duplicates.1 stateWithJane reqDupEmail noFaults sampleFile
     (str "a@b.com") rfl (by decide) rfl rfl rfl
     ⟨applicantJane, by decide, by decide⟩,
   c2_exact_match_duplicates.2.1 stateWithJane reqDupPhone noFaults sampleFile
     (str "1111111111") rfl (by decide) rfl rfl rfl (by decide)
     ⟨applicantJane, by decide, by decide⟩,
   c2_exact_match_duplicates.2.2 stateWithJane reqUpperEmail noFaults sampleFile
     rfl (by decide) rfl rfl (by decide) (by decide)⟩

/-- C4 counterexample: when deletion fails in the duplicate-email branch
the caller receives the internal-error response instead of the primary
duplicate-email error. -/
theorem c4_counterexample :
    (handler stateWithJane reqDupEmail ⟨true, false⟩).response = .internalError ∧
    ¬ (handler stateWithJane reqDupEmail ⟨true, false⟩).response =
        .badRequest .duplicateEmail := by
  decide

/-- C4 amended: only the catch-block cleanup is guarded: after a
record-creation failure the response is the internal error whether or not
the deletion succeeds, but a deletion failure in the duplicate-email
branch or in the duplicate-phone branch escapes to the catch handler and
turns the duplicate rejection into the internal-error response. -/
theorem c4_cleanup_failure_scope :
    (∀ st req f u, req.method = str "POST" → fieldError req = none →
       req.file = some f →
       st.applicants.find? (fun a => a.email == req.email.getD []) = none →
       st.applicants.find? (fun a => a.phone == req.phone.getD []) = none →
       (handler st req ⟨u, true⟩).response = .internalError) ∧
    (∀ st req faults f, req.method = str "POST" → fieldError req = none →
       req.file = some f → faults.unlinkFails = true →
       (st.applicants.find? (fun a => a.email == req.email.getD [])).isSome = true →
       (handler st req faults).response = .internalError) ∧
    (∀ st req faults f, req.method = str "POST" → fieldError req = none →
       req.file = some f → faults.unlinkFails = true →
       st.applicants.find? (fun a => a.email == req.email.getD []) = none →
       (st.applicants.find? (fun a => a.phone == req.phone.getD [])).isSome = true →
       (handler st req faults).response = .internalError) := by
  refine ⟨?_, ?_, ?_⟩
  · intro st req f u hm hfe hf hfind1 hfind2
    have hmain := handler_post_file st req ⟨u, true⟩ hm hfe hf
    rw [hmain]
    unfold dupAndCreate
    rw [hfind1, hfind2]
    cases u <;> simp
  · intro st req faults f hm hfe hf hu hsome
    cases hfind : st.applicants.find? (fun a => a.email == req.email.getD []) with
    | none => rw [hfind] at hsome; simp at hsome
    | some a0 =>
      have hmain := handler_post_file st req faults hm hfe hf
      rw [hmain]
      unfold dupAndCreate
      rw [hfind, hu]
      simp
  · intro st req faults f hm hfe hf hu hfind1 hsome
    cases hfind : st.applicants.find? (fun a => a.phone == req.phone.getD []) with
    | none => rw [hfind] at hsome; simp at hsome
    | some a0 =>
      have hmain := handler_post_file st req faults hm hfe hf
      rw [hmain]
      unfold dupAndCreate
      rw [hfind1, hfind, hu]
      simp

/-- C4 witness: a record-creation failure with failing deletion still
answers internal-error, and a duplicate-email submission as well as a
duplicate-phone submission with failing deletion each answer
internal-error instead of their duplicate error. -/
theorem c4_cleanup_failure_scope_witness :
    (handler emptyState reqValid ⟨true, true⟩).response = .internalError ∧
    (handler stateWithJane reqDupEmail ⟨true, true⟩).response = .internalError ∧
    (handler stateWithJane reqDupPhone ⟨true, false⟩).response = .internalError :=
  ⟨c4_cleanup_failure_scope.1 emptyState reqValid sampleFile true rfl
     (by decide) rfl rfl rfl,
   c4_cleanup_failure_scope.2.1 stateWithJane reqDupEmail ⟨true, true⟩ sampleFile
     rfl (by decide) rfl rfl (by decide),
   c4_cleanup_failure_scope.2.2 stateWithJane reqDupPhone ⟨true, false⟩ sampleFile
     rfl (by decide) rfl rfl (by decide) (by decide)⟩

end JobApp
